import Mathlib

/-!
# Verification of the go-alert-system alert codec, sync codec and API handlers

Shallow embedding of the repository's parsing and serialization routines.
Byte strings are `List Nat` with every element `< 256`; machine integers are
`Nat` (unsigned) or `Int` (after an explicit signed conversion); fallible Go
functions become `Except`-valued Lean functions.

The definitions in the `GoAlertSystem` namespace are translated from the Go
source.  Routines of this repository whose bodies are not part of the source
tree (only their fuzz tests, declarations or callers are) carry a doc comment
starting `Modelled from the spec:` and follow the specification's wording,
constrained by the repository's own fuzz-test assertions where those pin the
behaviour.
-/

deriving instance DecidableEq for Except

namespace GoAlertSystem

/-! ## Byte-level helpers (`encoding/binary` little-endian codecs) -/

/-- Little-endian interpretation of a byte list, as in
`binary.LittleEndian.Uint32` / `Uint64` applied to a slice. -/
def fromLE (bs : List Nat) : Nat :=
  bs.foldr (fun b acc => b + 256 * acc) 0

/-- Little-endian encoding of `n` into exactly `w` bytes, as in
`binary.LittleEndian.PutUint32` / `PutUint64` (higher bytes are truncated). -/
def toLE : Nat → Nat → List Nat
  | 0, _ => []
  | w + 1, n => n % 256 :: toLE w (n / 256)

/-- Every element of the list is a byte value. -/
def allBytes (bs : List Nat) : Prop := ∀ x ∈ bs, x < 256

instance (bs : List Nat) : Decidable (allBytes bs) :=
  inferInstanceAs (Decidable (∀ x ∈ bs, x < 256))

/-- Largest value representable by a positive signed 64-bit integer
(`math.MaxInt64`). -/
def maxInt64 : Nat := 2 ^ 63 - 1

/-- The Go int64 conversion of an unsigned 64-bit value: wraps into the
signed 64-bit range. -/
def toInt64 (n : Nat) : Int :=
  if n % 2 ^ 64 < 2 ^ 63 then ((n % 2 ^ 64 : Nat) : Int)
  else ((n % 2 ^ 64 : Nat) : Int) - 2 ^ 64

/-- One hexadecimal digit as an ASCII code, as produced by
`hex.EncodeToString`. -/
def hexDigit (n : Nat) : Nat :=
  if n < 10 then 48 + n else 87 + n

/-- Encoding as in hex.EncodeToString: each byte becomes two lowercase hex characters. -/
def hexEncode (bs : List Nat) : List Nat :=
  bs.foldr (fun b acc => hexDigit (b / 16) :: hexDigit (b % 16) :: acc) []

theorem toLE_length (w n : Nat) : (toLE w n).length = w := by
  induction w generalizing n with
  | zero => rfl
  | succ k ih => simp [toLE, ih]

theorem toLE_fromLE (bs : List Nat) (hb : allBytes bs) :
    toLE bs.length (fromLE bs) = bs := by
  induction bs with
  | nil => rfl
  | cons b rest ih =>
    have hbb : b < 256 := hb b (List.mem_cons_self b rest)
    have hrest : allBytes rest := fun x hx => hb x (List.mem_cons_of_mem b hx)
    have h1 : (b + 256 * fromLE rest) % 256 = b := by omega
    have h2 : (b + 256 * fromLE rest) / 256 = fromLE rest := by omega
    simp [toLE, fromLE] at *
    exact ⟨h1, by rw [h2]; exact ih hrest⟩

/-! ## The go-sdk `util.Reader` dependency

The alert parsers consume payloads through `util.NewReader` from the
`go-sdk/util` package.  That reader keeps the whole slice in `Data` and
advances a cursor `Pos`; `Data` is never shrunk.  `IsComplete` reports that
the cursor has reached the end. -/

/-- The go-sdk `util.Reader`: a fixed byte slice plus a read cursor. -/
structure BufReader where
  data : List Nat
  pos : Nat
deriving DecidableEq, Repr

/-- Error produced by the go-sdk reader when reading past the end of the
buffer. -/
inductive ReadErr where
  | pastEnd
deriving DecidableEq, Repr

/-- The go-sdk ReadByte: returns the byte at the cursor and advances it. -/
def BufReader.readByte (r : BufReader) : Except ReadErr (Nat × BufReader) :=
  if r.pos < r.data.length then
    .ok (r.data.getD r.pos 0, { r with pos := r.pos + 1 })
  else
    .error .pastEnd

/-- Read `n` consecutive bytes through `ReadByte`. -/
def BufReader.readBytesN : Nat → BufReader → Except ReadErr (List Nat × BufReader)
  | 0, r => .ok ([], r)
  | n + 1, r =>
    match r.readByte with
    | .error e => .error e
    | .ok (b, r1) =>
      match BufReader.readBytesN n r1 with
      | .error e => .error e
      | .ok (bs, r2) => .ok (b :: bs, r2)

/-- The go-sdk ReadVarInt: the Bitcoin variable-length integer.  A first
byte below 0xfd is the value itself; 0xfd, 0xfe, 0xff announce a
2-, 4- or 8-byte little-endian integer. -/
def BufReader.readVarInt (r : BufReader) : Except ReadErr (Nat × BufReader) :=
  match r.readByte with
  | .error e => .error e
  | .ok (b, r1) =>
    if b = 0xff then
      match r1.readBytesN 8 with
      | .error e => .error e
      | .ok (bs, r2) => .ok (fromLE bs, r2)
    else if b = 0xfe then
      match r1.readBytesN 4 with
      | .error e => .error e
      | .ok (bs, r2) => .ok (fromLE bs, r2)
    else if b = 0xfd then
      match r1.readBytesN 2 with
      | .error e => .error e
      | .ok (bs, r2) => .ok (fromLE bs, r2)
    else
      .ok (b, r1)

/-- The go-sdk IsComplete: the cursor has consumed the whole buffer. -/
def BufReader.isComplete (r : BufReader) : Bool :=
  r.data.length ≤ r.pos

/-- Byte-accumulating ReadByte loop, as in the Go pattern
for i := uint64(0); i < length; i++ with reader.ReadByte, used by the
payload parsers. -/
def readBytesLoop : Nat → BufReader → List Nat → Except ReadErr (List Nat × BufReader)
  | 0, r, acc => .ok (acc, r)
  | n + 1, r, acc =>
    match r.readByte with
    | .error e => .error e
    | .ok (b, r1) => readBytesLoop n r1 (acc ++ [b])

theorem readBytesLoop_fail (n : Nat) (r : BufReader) (acc : List Nat)
    (h : r.data.length - r.pos < n) :
    readBytesLoop n r acc = .error .pastEnd := by
  induction n generalizing r acc with
  | zero => omega
  | succ k ih =>
    by_cases hp : r.pos < r.data.length
    · simp only [readBytesLoop, BufReader.readByte, if_pos hp]
      exact ih _ _ (by simp; omega)
    · simp only [readBytesLoop, BufReader.readByte, if_neg hp]

theorem readBytesLoop_ok (n : Nat) (r : BufReader) (acc : List Nat)
    (h : n ≤ r.data.length - r.pos) :
    readBytesLoop n r acc =
      .ok (acc ++ (r.data.drop r.pos).take n, { r with pos := r.pos + n }) := by
  induction n generalizing r acc with
  | zero => simp [readBytesLoop]
  | succ k ih =>
    have hp : r.pos < r.data.length := by omega
    simp only [readBytesLoop, BufReader.readByte, if_pos hp]
    rw [ih _ _ (by simp; omega)]
    rw [List.drop_eq_getElem_cons hp, List.take_succ_cons]
    have hpos : r.pos + 1 + k = r.pos + (k + 1) := by omega
    simp [List.getD_eq_getElem r.data 0 hp, hpos, List.append_assoc,
      List.getElem?_eq_getElem hp]

/-! ## AlertMessageConfiscateTransaction.Read (app/models, present in src) -/

/-- Errors returned by the confiscate-transaction payload parser.  The
varIntReadFailed and failedToReadTxHex cases wrap the underlying go-sdk
reader error, as the Go code returns it (the latter through fmt.Errorf with
ErrFailedToReadTxHex). -/
inductive ConfErr where
  | confiscationAlertTooShort
  | varIntReadFailed (e : ReadErr)
  | txHexLengthTooLong
  | failedToReadTxHex (e : ReadErr)
  | enforceAtHeightOverflow
deriving DecidableEq, Repr

/-- The go-bn models.ConfiscationTransactionDetails record as filled in by
Read: a signed height and the hex-encoded transaction bytes. -/
structure ConfiscationTransactionDetails where
  enforceAtHeight : Int
  hexStr : List Nat
deriving DecidableEq, Repr

/-- Translation of AlertMessageConfiscateTransaction.Read from
app/models: length guard, u64 LE height at bytes 0..8, a go-sdk reader over
raw[8:], VarInt tx-hex length compared against len(reader.Data) (the whole
post-height slice, the cursor position is not subtracted), a ReadByte loop
for the hex bytes, then the MaxInt64 overflow guard, then the single
transaction record. -/
def confiscateTransactionRead (raw : List Nat) :
    Except ConfErr (List ConfiscationTransactionDetails) :=
  if raw.length < 9 then .error .confiscationAlertTooShort
  else
    let enforceAtHeight := fromLE (raw.take 8)
    let reader : BufReader := ⟨raw.drop 8, 0⟩
    match reader.readVarInt with
    | .error e => .error (.varIntReadFailed e)
    | .ok (len, r1) =>
      if r1.data.length < len then .error .txHexLengthTooLong
      else
        match readBytesLoop len r1 [] with
        | .error e => .error (.failedToReadTxHex e)
        | .ok (rawHex, _) =>
          if maxInt64 < enforceAtHeight then .error .enforceAtHeightOverflow
          else
            .ok [{ enforceAtHeight := toInt64 enforceAtHeight
                   hexStr := hexEncode rawHex }]

/-- The receiver of the Read method; the Go struct embeds the base
AlertMessage (never touched by Read) and carries the Transactions slice,
the only field the method assigns. -/
structure AlertMessageConfiscateTransaction where
  transactions : List ConfiscationTransactionDetails
deriving DecidableEq, Repr

/-- Method form of Read on its receiver: the Go body assigns
a.Transactions = details only after every check has passed; every earlier
return err leaves the receiver as it was. -/
def AlertMessageConfiscateTransaction.readM
    (a : AlertMessageConfiscateTransaction) (raw : List Nat) :
    AlertMessageConfiscateTransaction × Option ConfErr :=
  match confiscateTransactionRead raw with
  | .error e => (a, some e)
  | .ok details => ({ a with transactions := details }, none)

/-! ## The health handler (app/api/base/health.go, present in src) -/

/-- Persisted alert record as consumed by the health handler; only the
sequence number and raw bytes are observed there. -/
structure AlertRec where
  sequenceNumber : Nat
  raw : List Nat
deriving DecidableEq, Repr

/-- Error surfaced by a store lookup (GetLatestAlert returning err). -/
inductive StoreErr where
  | backendUnavailable
deriving DecidableEq, Repr

/-- Error values the handler can answer with. -/
inductive HealthErr where
  | store (e : StoreErr)
  | alertNotFound
deriving DecidableEq, Repr

/-- The HealthResponse body from app/api/base/health.go. -/
structure HealthResponse where
  alert : AlertRec
  sequence : Nat
  synced : Bool
  activePeers : Nat
  unprocessedAlerts : Nat
deriving DecidableEq, Repr

/-- Outcome of the handler: an API error with an HTTP status, or a JSON
response together with the field list handed to ReturnJSONEncode. -/
inductive HealthOutcome where
  | apiError (status : Nat) (e : HealthErr)
  | ok (resp : HealthResponse) (fields : List String)
deriving DecidableEq, Repr

/-- Translation of the health handler: GetLatestAlert errors map to a 400
response, a missing latest alert to 404 ErrAlertNotFound, and otherwise the
response carries the alert, its sequence number, the active peer count, the
number of unprocessed alerts, and Synced hard-coded to true. -/
def healthHandler (latest : Except StoreErr (Option AlertRec))
    (unprocessed : List AlertRec) (activePeers : Nat) : HealthOutcome :=
  match latest with
  | .error e => .apiError 400 (.store e)
  | .ok none => .apiError 404 .alertNotFound
  | .ok (some alert) =>
    .ok { alert := alert
          sequence := alert.sequenceNumber
          synced := true
          activePeers := activePeers
          unprocessedAlerts := unprocessed.length }
      ["alert", "synced", "sequence", "active_peers", "unprocessed_alerts"]

/-- Modelled from the spec: GetLatestAlert (the Alert Store latest()
operation of section 4.4) is not under src/; per the spec it returns the
alert with the greatest sequence_number, or nothing when the store holds no
alerts. -/
def getLatestAlert (store : List AlertRec) : Option AlertRec :=
  store.foldl
    (fun acc a =>
      match acc with
      | none => some a
      | some b => if b.sequenceNumber < a.sequenceNumber then some a else some b)
    none

/-! ## Alert payload variant parsers

The bodies of these parsers are not under src/ (only their fuzz tests and
error values are); they are modelled from the specification, sections 3 and
4.1, using the same go-sdk reader the in-src confiscation parser uses. -/

/-- Errors of the informational payload parser (error values from the
in-src models error list). -/
inductive InfoErr where
  | varIntFailed (e : ReadErr)
  | infoMessageLengthTooLong
  | failedToReadMessage (e : ReadErr)
  | tooManyBytesInAlert
deriving DecidableEq, Repr

/-- Modelled from the spec: AlertMessageInformational.Read is not under
src/.  Payload is VarInt(len) plus utf8 bytes; a VarInt length above the
remaining buffer fails, and trailing bytes after the message fail the
IsComplete check with ErrTooManyBytesInAlert. -/
def informationalRead (payload : List Nat) : Except InfoErr (List Nat) :=
  match (BufReader.mk payload 0).readVarInt with
  | .error e => .error (.varIntFailed e)
  | .ok (len, r1) =>
    if r1.data.length - r1.pos < len then .error .infoMessageLengthTooLong
    else
      match readBytesLoop len r1 [] with
      | .error e => .error (.failedToReadMessage e)
      | .ok (msg, r2) =>
        if r2.isComplete then .ok msg else .error .tooManyBytesInAlert

/-- Errors of the freeze / unfreeze payload parser (error values from the
in-src models error list). -/
inductive FreezeErr where
  | freezeAlertTooShort
  | freezeAlertInvalidLength
  | valueExceedsMaxInt
deriving DecidableEq, Repr

/-- One fund record of a freeze / unfreeze alert, after the signed
conversions the record at rest uses. -/
structure Fund where
  txId : List Nat
  vout : Int
  enforceAtHeightStart : Int
  enforceAtHeightStop : Int
  policyExpiresWithConsensus : Bool
deriving DecidableEq, Repr

/-- Field extraction from one 57-byte chunk:
txid(32) then vout(u64 LE) then start(u64 LE) then stop(u64 LE) then the
expire flag byte. -/
def fundOfChunk (c : List Nat) : Fund :=
  { txId := c.take 32
    vout := toInt64 (fromLE ((c.drop 32).take 8))
    enforceAtHeightStart := toInt64 (fromLE ((c.drop 40).take 8))
    enforceAtHeightStop := toInt64 (fromLE ((c.drop 48).take 8))
    policyExpiresWithConsensus := c.getD 56 0 != 0 }

/-- The three u64 fields of a 57-byte chunk fit the positive signed 64-bit
range. -/
def chunkFieldsOk (c : List Nat) : Prop :=
  fromLE ((c.drop 32).take 8) ≤ maxInt64 ∧
  fromLE ((c.drop 40).take 8) ≤ maxInt64 ∧
  fromLE ((c.drop 48).take 8) ≤ maxInt64

instance (c : List Nat) : Decidable (chunkFieldsOk c) := by
  unfold chunkFieldsOk; infer_instance

/-- Per-chunk loop of the freeze parser: reject any u64 field outside the
positive signed 64-bit range, otherwise collect the fund record and advance
57 bytes. -/
def readFundChunks : Nat → List Nat → Except FreezeErr (List Fund)
  | 0, _ => .ok []
  | n + 1, rest =>
    if ¬ chunkFieldsOk (rest.take 57) then .error .valueExceedsMaxInt
    else
      match readFundChunks n (rest.drop 57) with
      | .error e => .error e
      | .ok fs => .ok (fundOfChunk (rest.take 57) :: fs)

/-- Modelled from the spec: AlertMessageFreezeUtxo.Read is not under src/.
Per the spec the payload is zero or more 57-byte fund records and its
length must be a positive multiple of 57; per the spec overflow policy and
the success-path assertions of FuzzAlertMessageFreezeUtxoRead (vout
non-negative, start and stop within int range, with a max-uint64 seed said
to trigger the overflow check) each u64 field must fit the positive signed
64-bit range, rejected with ErrValueExceedsMaxInt otherwise. -/
def freezeUtxoRead (raw : List Nat) : Except FreezeErr (List Fund) :=
  if raw.length < 57 then .error .freezeAlertTooShort
  else if raw.length % 57 ≠ 0 then .error .freezeAlertInvalidLength
  else readFundChunks (raw.length / 57) raw

/-- Errors of the ban / unban payload parser. -/
inductive BanErr where
  | varIntFailed (e : ReadErr)
  | lengthTooLong
  | failedToReadPeer (e : ReadErr)
  | failedToReadReason (e : ReadErr)
  | tooManyBytes
deriving DecidableEq, Repr

/-- Modelled from the spec: AlertMessageBanPeer.Read (and the identical
unban parser) is not under src/.  Payload is VarInt(peer_len), peer bytes,
VarInt(reason_len), reason bytes; each VarInt length is checked against the
remaining buffer, and trailing bytes fail per the spec parse contract. -/
def banPeerRead (payload : List Nat) : Except BanErr (List Nat × List Nat) :=
  match (BufReader.mk payload 0).readVarInt with
  | .error e => .error (.varIntFailed e)
  | .ok (peerLen, r1) =>
    if r1.data.length - r1.pos < peerLen then .error .lengthTooLong
    else
      match readBytesLoop peerLen r1 [] with
      | .error e => .error (.failedToReadPeer e)
      | .ok (peer, r2) =>
        match r2.readVarInt with
        | .error e => .error (.varIntFailed e)
        | .ok (reasonLen, r3) =>
          if r3.data.length - r3.pos < reasonLen then .error .lengthTooLong
          else
            match readBytesLoop reasonLen r3 [] with
            | .error e => .error (.failedToReadReason e)
            | .ok (reason, r4) =>
              if r4.isComplete then .ok (peer, reason)
              else .error .tooManyBytes

/-- Errors of the invalidate-block payload parser. -/
inductive InvErr where
  | invalidateBlockTooShort
  | varIntFailed (e : ReadErr)
  | lengthTooLong
  | failedToReadReason (e : ReadErr)
  | tooManyBytes
deriving DecidableEq, Repr

/-- Modelled from the spec: AlertMessageInvalidateBlock.Read is not under
src/.  Payload is block_hash(32) then VarInt(reason_len) then reason bytes,
with the VarInt length checked against the remaining buffer and trailing
bytes rejected. -/
def invalidateBlockRead (payload : List Nat) :
    Except InvErr (List Nat × List Nat) :=
  if payload.length < 32 then .error .invalidateBlockTooShort
  else
    match (BufReader.mk (payload.drop 32) 0).readVarInt with
    | .error e => .error (.varIntFailed e)
    | .ok (reasonLen, r1) =>
      if r1.data.length - r1.pos < reasonLen then .error .lengthTooLong
      else
        match readBytesLoop reasonLen r1 [] with
        | .error e => .error (.failedToReadReason e)
        | .ok (reason, r2) =>
          if r2.isComplete then .ok (payload.take 32, reason)
          else .error .tooManyBytes

/-- Errors of the set-keys payload parser. -/
inductive SetKeysErr where
  | setKeysAlertInvalidLength
deriving DecidableEq, Repr

/-- Modelled from the spec: AlertMessageSetKeys.Read is not under src/.
Payload must be exactly 165 bytes, five concatenated 33-byte compressed
public keys (point validity is checked later, at rotation). -/
def setKeysRead (payload : List Nat) : Except SetKeysErr (List (List Nat)) :=
  if payload.length = 165 then
    .ok ((List.range 5).map fun i => (payload.drop (33 * i)).take 33)
  else .error .setKeysAlertInvalidLength

/-! ## Alert envelope codec (NewAlertFromBytes / Serialize) -/

/-- Alert type discriminators; numeric values follow the deployed network
(the spec lists the set and fixes only the special value 99). -/
def alertTypeInformational : Nat := 1

/-- FreezeUtxo discriminator. -/
def alertTypeFreezeUtxo : Nat := 2

/-- UnfreezeUtxo discriminator. -/
def alertTypeUnfreezeUtxo : Nat := 3

/-- ConfiscateUtxo / ConfiscateTransaction discriminator. -/
def alertTypeConfiscateUtxo : Nat := 4

/-- BanPeer discriminator. -/
def alertTypeBanPeer : Nat := 5

/-- UnbanPeer discriminator. -/
def alertTypeUnbanPeer : Nat := 6

/-- InvalidateBlock discriminator. -/
def alertTypeInvalidateBlock : Nat := 7

/-- SetKeys discriminator. -/
def alertTypeSetKeys : Nat := 8

/-- Envelope-level parse errors; variant errors are carried through. -/
inductive EnvelopeErr where
  | alertTooShort
  | unknownAlertType
  | infoErr (e : InfoErr)
  | freezeErr (e : FreezeErr)
  | confErr (e : ConfErr)
  | banErr (e : BanErr)
  | invalidateErr (e : InvErr)
  | setKeysErr (e : SetKeysErr)
deriving DecidableEq, Repr

/-- Structured alert produced by the envelope parser: the decoded header
fields plus the raw payload and signature slices (the raw bytes stay
authoritative; the structured view is a cache). -/
structure AlertEnvelope where
  version : Nat
  sequenceNumber : Nat
  timestamp : Nat
  alertType : Nat
  rawMessage : List Nat
  signatures : List Nat
deriving DecidableEq, Repr

/-- Signature length selected by the alert type: 65 normally, 128 for the
provisional type 99. -/
def sigLenOf (alertType : Nat) : Nat :=
  if alertType = 99 then 128 else 65

/-- Signing threshold m of the default m-of-n deployment. -/
def thresholdM : Nat := 3

/-- Variant dispatch of the envelope parser: each type code hands the
payload slice to its parser; the confiscation variant uses the in-src
translation; unknown codes fail. -/
def variantCheck (t : Nat) (payload : List Nat) : Except EnvelopeErr Unit :=
  if t = alertTypeInformational then
    match informationalRead payload with
    | .error e => .error (.infoErr e)
    | .ok _ => .ok ()
  else if t = alertTypeFreezeUtxo ∨ t = alertTypeUnfreezeUtxo then
    match freezeUtxoRead payload with
    | .error e => .error (.freezeErr e)
    | .ok _ => .ok ()
  else if t = alertTypeConfiscateUtxo then
    match confiscateTransactionRead payload with
    | .error e => .error (.confErr e)
    | .ok _ => .ok ()
  else if t = alertTypeBanPeer ∨ t = alertTypeUnbanPeer then
    match banPeerRead payload with
    | .error e => .error (.banErr e)
    | .ok _ => .ok ()
  else if t = alertTypeInvalidateBlock then
    match invalidateBlockRead payload with
    | .error e => .error (.invalidateErr e)
    | .ok _ => .ok ()
  else if t = alertTypeSetKeys then
    match setKeysRead payload with
    | .error e => .error (.setKeysErr e)
    | .ok _ => .ok ()
  else .error .unknownAlertType

/-- Modelled from the spec: NewAlertFromBytes / AlertMessage.ReadRaw are
not under src/.  Per the spec parse contract, the fixed 20-byte header is
read at fixed offsets (version, sequence, timestamp, alert type, all
little-endian), the alert type selects the signature length, inputs
shorter than header plus one payload byte plus the threshold-times-sig-len
signature block fail with the too-short error, the trailing signature
block is split off, and the middle payload slice goes to the variant
parser. -/
def parseEnvelope (b : List Nat) : Except EnvelopeErr AlertEnvelope :=
  if b.length < 20 then .error .alertTooShort
  else
    let t := fromLE ((b.drop 16).take 4)
    let sigBlock := thresholdM * sigLenOf t
    if b.length < 20 + 1 + sigBlock then .error .alertTooShort
    else
      let payload := (b.drop 20).take (b.length - 20 - sigBlock)
      match variantCheck t payload with
      | .error e => .error e
      | .ok _ =>
        .ok { version := fromLE (b.take 4)
              sequenceNumber := fromLE ((b.drop 4).take 4)
              timestamp := fromLE ((b.drop 8).take 8)
              alertType := t
              rawMessage := payload
              signatures := b.drop (b.length - sigBlock) }

/-- Modelled from the spec: AlertMessage.Serialize is not under src/.  It
re-emits the header fields little-endian at their fixed widths followed by
the raw payload bytes and the signature block. -/
def serializeEnvelope (a : AlertEnvelope) : List Nat :=
  toLE 4 a.version ++ toLE 4 a.sequenceNumber ++ toLE 8 a.timestamp ++
    toLE 4 a.alertType ++ a.rawMessage ++ a.signatures

/-! ## Sync message codec (app/p2p, bodies not under src) -/

/-- Sync wire type code 0x01. -/
def iWantLatestCode : Nat := 1

/-- Sync wire type code 0x02. -/
def iWantSequenceNumberCode : Nat := 2

/-- Sync wire type code 0x03. -/
def iGotSequenceNumberCode : Nat := 3

/-- Sync wire type code 0x04. -/
def iGotLatestCode : Nat := 4

/-- The P2P SyncMessage value: a type byte, a sequence number and opaque
data bytes. -/
structure SyncMessage where
  msgType : Nat
  sequenceNumber : Nat
  data : List Nat
deriving DecidableEq, Repr

/-- Sync parse errors. -/
inductive SyncErr where
  | emptyMessage
  | invalidIWantLatestLength
  | tooShort
deriving DecidableEq, Repr

/-- Modelled from the spec: NewSyncMessageFromBytes is not under src/.
Per the spec parse rule, an IWantLatest message is valid at exactly one
byte; every other type byte, known or not, needs at least five bytes, takes
its sequence number from bytes 1..5 little-endian, and keeps any trailing
bytes as data. -/
def newSyncMessageFromBytes (b : List Nat) : Except SyncErr SyncMessage :=
  match b with
  | [] => .error .emptyMessage
  | t :: rest =>
    if t = iWantLatestCode then
      if rest.length = 0 then .ok { msgType := t, sequenceNumber := 0, data := [] }
      else .error .invalidIWantLatestLength
    else if rest.length < 4 then .error .tooShort
    else .ok { msgType := t, sequenceNumber := fromLE (rest.take 4), data := rest.drop 4 }

/-- Modelled from the spec: SyncMessage.Serialize is not under src/; its
behaviour is pinned by the in-src FuzzSyncMessageSerialize test, which for
every message, the IWantLatest seed included, requires at least five bytes
with the type byte first, the sequence number little-endian at bytes 1..5,
and the data bytes after. -/
def SyncMessage.serialize (m : SyncMessage) : List Nat :=
  m.msgType :: (toLE 4 m.sequenceNumber ++ m.data)

/-! ## Reader bookkeeping lemmas -/

theorem readByte_data_eq (r : BufReader) (b : Nat) (r1 : BufReader)
    (h : r.readByte = .ok (b, r1)) : r1.data = r.data := by
  unfold BufReader.readByte at h
  split at h
  · simp at h
    rw [← h.2]
  · exact Except.noConfusion h

theorem readBytesN_data_eq (n : Nat) (r : BufReader) (bs : List Nat)
    (r2 : BufReader) (h : BufReader.readBytesN n r = .ok (bs, r2)) :
    r2.data = r.data := by
  induction n generalizing r bs r2 with
  | zero =>
    unfold BufReader.readBytesN at h
    simp at h
    rw [← h.2]
  | succ k ih =>
    unfold BufReader.readBytesN at h
    split at h
    · exact Except.noConfusion h
    · rename_i b r1' hb
      split at h
      · exact Except.noConfusion h
      · rename_i bs1 r3 hk
        simp at h
        rw [← h.2, ih r1' bs1 r3 hk, readByte_data_eq r b r1' hb]

theorem readVarInt_data_eq (r : BufReader) (v : Nat) (r1 : BufReader)
    (h : r.readVarInt = .ok (v, r1)) : r1.data = r.data := by
  unfold BufReader.readVarInt at h
  split at h
  · exact Except.noConfusion h
  · rename_i b r0 hb
    have hb' := readByte_data_eq r b r0 hb
    split at h
    · split at h
      · exact Except.noConfusion h
      · rename_i bs rr hn
        simp at h
        rw [← h.2, readBytesN_data_eq 8 r0 bs rr hn, hb']
    · split at h
      · split at h
        · exact Except.noConfusion h
        · rename_i bs rr hn
          simp at h
          rw [← h.2, readBytesN_data_eq 4 r0 bs rr hn, hb']
      · split at h
        · split at h
          · exact Except.noConfusion h
          · rename_i bs rr hn
            simp at h
            rw [← h.2, readBytesN_data_eq 2 r0 bs rr hn, hb']
        · simp at h
          rw [← h.2, hb']

/-! ## Claim C2: the tx-hex length comparison -/

/-- Concrete confiscation payload: zero height, then the VarInt 1 with no
byte left to read after it. -/
def c2raw : List Nat := [0, 0, 0, 0, 0, 0, 0, 0, 1]

/-- C2 counterexample.  On c2raw the VarInt decodes to 1, which exceeds the
zero bytes remaining after the VarInt, yet Read fails with the
failed-to-read error from the byte loop, not with ErrTxHexLengthTooLong:
the Go comparison uses len(reader.Data), which still includes the VarInt
byte itself. -/
theorem c2_length_error_counterexample :
    (BufReader.mk (c2raw.drop 8) 0).readVarInt = .ok (1, ⟨[1], 1⟩) ∧
    (⟨[1], 1⟩ : BufReader).data.length - (⟨[1], 1⟩ : BufReader).pos < 1 ∧
    confiscateTransactionRead c2raw = .error (.failedToReadTxHex .pastEnd) ∧
    ConfErr.failedToReadTxHex .pastEnd ≠ ConfErr.txHexLengthTooLong := by
  decide

/-- C2 amended.  The pre-allocation comparison is against the whole
post-height slice, VarInt bytes included: a decoded length above
len(raw) - 8 fails with ErrTxHexLengthTooLong before the read loop runs,
while a length within that bound but above the bytes remaining after the
VarInt fails inside the loop with the failed-to-read error. -/
theorem c2_length_check_amended :
    (∀ (raw : List Nat) (len : Nat) (r1 : BufReader),
      (BufReader.mk (raw.drop 8) 0).readVarInt = .ok (len, r1) →
      9 ≤ raw.length →
      raw.length - 8 < len →
      confiscateTransactionRead raw = .error .txHexLengthTooLong) ∧
    (∀ (raw : List Nat) (len : Nat) (r1 : BufReader),
      (BufReader.mk (raw.drop 8) 0).readVarInt = .ok (len, r1) →
      9 ≤ raw.length →
      len ≤ raw.length - 8 →
      raw.length - 8 - r1.pos < len →
      confiscateTransactionRead raw = .error (.failedToReadTxHex .pastEnd)) := by
  constructor
  · intro raw len r1 hv h9 hlong
    have hd : r1.data = raw.drop 8 := readVarInt_data_eq _ _ _ hv
    have hlt : r1.data.length < len := by rw [hd]; simp; omega
    simp [confiscateTransactionRead, hv, hlt, show ¬ raw.length < 9 from by omega]
  · intro raw len r1 hv h9 hle hrem
    have hd : r1.data = raw.drop 8 := readVarInt_data_eq _ _ _ hv
    have hnot : ¬ r1.data.length < len := by rw [hd]; simp; omega
    have hfail := readBytesLoop_fail len r1 [] (by rw [hd]; simp; omega)
    simp [confiscateTransactionRead, hv, hnot, hfail,
      show ¬ raw.length < 9 from by omega]

/-- Second concrete payload for the C2 witness: VarInt 3 against a slice of
two bytes. -/
def c2rawLong : List Nat := [0, 0, 0, 0, 0, 0, 0, 0, 3, 1]

/-- C2 witness: both branches of the amended statement at concrete
payloads. -/
theorem c2_length_check_witness :
    confiscateTransactionRead c2rawLong = .error .txHexLengthTooLong ∧
    confiscateTransactionRead c2raw = .error (.failedToReadTxHex .pastEnd) :=
  ⟨c2_length_check_amended.1 c2rawLong 3 ⟨[3, 1], 1⟩ (by decide) (by decide)
      (by decide),
   c2_length_check_amended.2 c2raw 1 ⟨[1], 1⟩ (by decide) (by decide) (by decide)
      (by decide)⟩

/-! ## Claim C3: the enforce-at-height overflow rule -/

/-- Concrete confiscation payload: height 2 to the 63 little-endian, then a
VarInt announcing one byte with nothing left to read. -/
def c3raw : List Nat := [0, 0, 0, 0, 0, 0, 0, 128, 1]

/-- C3 counterexample: the height field decodes to 2 to the 63, above the
positive signed range, but Read reports the tx-hex read failure, not
ErrEnforceAtHeightOverflow, because the overflow guard sits after the
tx-hex loop. -/
theorem c3_overflow_counterexample :
    fromLE (c3raw.take 8) = 2 ^ 63 ∧
    maxInt64 < fromLE (c3raw.take 8) ∧
    confiscateTransactionRead c3raw = .error (.failedToReadTxHex .pastEnd) ∧
    ConfErr.failedToReadTxHex .pastEnd ≠ ConfErr.enforceAtHeightOverflow := by
  decide

theorem toInt64_of_le_maxInt64 (n : Nat) (h : n ≤ maxInt64) :
    toInt64 n = (n : Int) := by
  unfold toInt64
  unfold maxInt64 at h
  rw [Nat.mod_eq_of_lt (by omega), if_pos (by omega)]

/-- C3 amended.  When the VarInt and the tx-hex section parse (the decoded
length fits the post-VarInt remainder), a height above the positive signed
64-bit range fails with ErrEnforceAtHeightOverflow; and every successful
Read has a height within that range, stored unchanged as a signed 64-bit
value.  A malformed tx-hex section preempts the overflow error. -/
theorem c3_overflow_amended :
    (∀ (raw : List Nat) (len : Nat) (r1 : BufReader)
        (res : List Nat × BufReader),
      9 ≤ raw.length →
      (BufReader.mk (raw.drop 8) 0).readVarInt = .ok (len, r1) →
      readBytesLoop len r1 [] = .ok res →
      maxInt64 < fromLE (raw.take 8) →
      confiscateTransactionRead raw = .error .enforceAtHeightOverflow) ∧
    (∀ (raw : List Nat) (txs : List ConfiscationTransactionDetails),
      confiscateTransactionRead raw = .ok txs →
      fromLE (raw.take 8) ≤ maxInt64 ∧
      txs.map (fun d => d.enforceAtHeight) = [((fromLE (raw.take 8) : Nat) : Int)]) := by
  constructor
  · intro raw len r1 res h9 hv hloop hover
    have hnot : ¬ r1.data.length < len := by
      intro hlt
      have := readBytesLoop_fail len r1 [] (by omega)
      rw [this] at hloop
      exact Except.noConfusion hloop
    simp [confiscateTransactionRead, hv, hnot, hloop, hover,
      show ¬ raw.length < 9 from by omega]
  · intro raw txs h
    simp only [confiscateTransactionRead] at h
    split at h
    · exact Except.noConfusion h
    · split at h
      · exact Except.noConfusion h
      · rename_i len r1 hv
        split at h
        · exact Except.noConfusion h
        · split at h
          · exact Except.noConfusion h
          · rename_i rawHex rrest hloop
            split at h
            · exact Except.noConfusion h
            · rename_i hok
              have hle : fromLE (raw.take 8) ≤ maxInt64 := by omega
              refine ⟨hle, ?_⟩
              simp at h
              subst h
              simp [toInt64_of_le_maxInt64 _ hle]

/-- Concrete well-formed overflow payload for the C3 witness: height 2 to
the 63, VarInt 0, nothing else. -/
def c3rawOk : List Nat := [0, 0, 0, 0, 0, 0, 0, 128, 0]

/-- Concrete in-range payload for the C3 witness: height 5, VarInt 0. -/
def c3rawSmall : List Nat := [5, 0, 0, 0, 0, 0, 0, 0, 0]

/-- C3 witness: the amended statement at concrete payloads, one above the
signed range with a well-formed tx-hex section, one within range. -/
theorem c3_overflow_witness :
    confiscateTransactionRead c3rawOk = .error .enforceAtHeightOverflow ∧
    (fromLE (c3rawSmall.take 8) ≤ maxInt64 ∧
      ([⟨(5 : Int), []⟩] : List ConfiscationTransactionDetails).map
          (fun d => d.enforceAtHeight) =
        [((fromLE (c3rawSmall.take 8) : Nat) : Int)]) :=
  ⟨c3_overflow_amended.1 c3rawOk 0 ⟨[0], 1⟩ ([], ⟨[0], 1⟩) (by decide) (by decide)
      (by decide) (by decide),
   c3_overflow_amended.2 c3rawSmall [⟨(5 : Int), []⟩] (by decide)⟩

/-! ## Claim C9: Read leaves the receiver unchanged on error -/

/-- C9: whenever the method form of Read reports an error, the receiver is
returned exactly as it was; the Transactions assignment only happens on the
success path. -/
theorem c9_read_atomic_on_error :
    ∀ (a : AlertMessageConfiscateTransaction) (raw : List Nat) (e : ConfErr),
      (a.readM raw).2 = some e → (a.readM raw).1 = a := by
  intro a raw e h
  unfold AlertMessageConfiscateTransaction.readM at *
  cases hr : confiscateTransactionRead raw with
  | error e2 => simp [hr]
  | ok d => rw [hr] at h; simp at h

/-- C9 witness: a too-short payload errors and the receiver is unchanged. -/
theorem c9_read_atomic_witness :
    ((AlertMessageConfiscateTransaction.mk [⟨(3 : Int), [48]⟩]).readM []).2 =
      some .confiscationAlertTooShort ∧
    ((AlertMessageConfiscateTransaction.mk [⟨(3 : Int), [48]⟩]).readM []).1 =
      AlertMessageConfiscateTransaction.mk [⟨(3 : Int), [48]⟩] :=
  ⟨by decide,
   c9_read_atomic_on_error (AlertMessageConfiscateTransaction.mk [⟨(3 : Int), [48]⟩])
      [] .confiscationAlertTooShort (by decide)⟩

/-! ## Claim C8: the health response -/

/-- C8: every successful health response has Synced hard-coded to true,
exposes exactly the five JSON fields, and mirrors the latest alert,
active-peer count and unprocessed count. -/
theorem c8_health_success :
    ∀ (latest : Except StoreErr (Option AlertRec)) (unprocessed : List AlertRec)
      (activePeers : Nat) (resp : HealthResponse) (fields : List String),
      healthHandler latest unprocessed activePeers = .ok resp fields →
      resp.synced = true ∧
      fields = ["alert", "synced", "sequence", "active_peers", "unprocessed_alerts"] ∧
      resp.sequence = resp.alert.sequenceNumber ∧
      resp.activePeers = activePeers ∧
      resp.unprocessedAlerts = unprocessed.length := by
  intro latest u p resp fields h
  cases latest with
  | error e => simp [healthHandler] at h
  | ok o =>
    cases o with
    | none => simp [healthHandler] at h
    | some alert =>
      simp only [healthHandler] at h
      injection h with h1 h2
      subst h1
      subst h2
      exact ⟨rfl, rfl, rfl, rfl, rfl⟩

/-- Concrete latest alert for the C8 witness. -/
def c8alert : AlertRec := ⟨7, [0]⟩

/-- Concrete successful response for the C8 witness. -/
def c8resp : HealthResponse := ⟨c8alert, 7, true, 2, 1⟩

/-- C8 witness: the handler at a concrete store state. -/
theorem c8_health_success_witness :
    healthHandler (.ok (some c8alert)) [c8alert] 2 =
      .ok c8resp ["alert", "synced", "sequence", "active_peers", "unprocessed_alerts"] ∧
    c8resp.synced = true ∧
    ["alert", "synced", "sequence", "active_peers", "unprocessed_alerts"] =
      ["alert", "synced", "sequence", "active_peers", "unprocessed_alerts"] ∧
    c8resp.sequence = c8resp.alert.sequenceNumber ∧
    c8resp.activePeers = 2 ∧
    c8resp.unprocessedAlerts = [c8alert].length :=
  ⟨by decide,
   c8_health_success (.ok (some c8alert)) [c8alert] 2 c8resp
      ["alert", "synced", "sequence", "active_peers", "unprocessed_alerts"]
      (by decide)⟩

/-! ## Claim C10: empty store means 404, not a health report -/

/-- C10: with no stored alerts the latest-alert lookup yields nothing and
the handler answers 404 alert-not-found instead of a health body. -/
theorem c10_health_empty_store :
    ∀ (unprocessed : List AlertRec) (activePeers : Nat),
      getLatestAlert [] = none ∧
      healthHandler (.ok (getLatestAlert [])) unprocessed activePeers =
        .apiError 404 .alertNotFound := by
  intro u p
  exact ⟨rfl, rfl⟩

/-! ## Claim C7: serialization of IWantLatest -/

/-- C7 counterexample: an IWantLatest message with empty data serializes to
the five bytes type, sequence, data, not to the single type byte. -/
theorem c7_serialize_counterexample :
    (SyncMessage.mk iWantLatestCode 0 []).msgType = iWantLatestCode ∧
    (SyncMessage.mk iWantLatestCode 0 []).serialize = [1, 0, 0, 0, 0] ∧
    (SyncMessage.mk iWantLatestCode 0 []).serialize.length ≠ 1 := by
  decide

theorem fromLE_toLE (w n : Nat) : fromLE (toLE w n) = n % 256 ^ w := by
  induction w generalizing n with
  | zero => simp [toLE, fromLE, Nat.mod_one]
  | succ k ih =>
    have hcons : toLE (k + 1) n = n % 256 :: toLE k (n / 256) := rfl
    have hf : fromLE (n % 256 :: toLE k (n / 256)) =
        n % 256 + 256 * fromLE (toLE k (n / 256)) := rfl
    rw [hcons, hf, ih, Nat.pow_succ, Nat.mul_comm (256 ^ k) 256, Nat.mod_mul]

theorem fromLE_toLE_four (n : Nat) (h : n < 2 ^ 32) :
    fromLE (toLE 4 n) = n := by
  rw [fromLE_toLE]
  have h4 : (256 : Nat) ^ 4 = 2 ^ 32 := by norm_num
  rw [h4]
  omega

/-- C7 amended: Serialize emits type, little-endian sequence and data for
every message, IWantLatest included, so the output always has 5 plus
data-length bytes; the 1-byte IWantLatest wire form is what the parser
accepts, not what Serialize emits. -/
theorem c7_serialize_amended :
    ∀ (m : SyncMessage), m.sequenceNumber < 2 ^ 32 →
      m.serialize.length = 5 + m.data.length ∧
      m.serialize.getD 0 0 = m.msgType ∧
      fromLE ((m.serialize.drop 1).take 4) = m.sequenceNumber ∧
      m.serialize.drop 5 = m.data := by
  intro m h
  refine ⟨?_, rfl, ?_, ?_⟩
  · simp only [SyncMessage.serialize, List.length_cons, List.length_append, toLE_length]
    omega
  · show fromLE ((toLE 4 m.sequenceNumber ++ m.data).take 4) = m.sequenceNumber
    rw [List.take_left' (toLE_length 4 m.sequenceNumber)]
    exact fromLE_toLE_four _ h
  · show (toLE 4 m.sequenceNumber ++ m.data).drop 4 = m.data
    exact List.drop_left' (toLE_length 4 m.sequenceNumber)

/-- C7 witness: the amended statement at a concrete message. -/
theorem c7_serialize_witness :
    (SyncMessage.mk 2 7 [9]).serialize.length = 5 + (SyncMessage.mk 2 7 [9]).data.length ∧
    (SyncMessage.mk 2 7 [9]).serialize.getD 0 0 = (SyncMessage.mk 2 7 [9]).msgType ∧
    fromLE (((SyncMessage.mk 2 7 [9]).serialize.drop 1).take 4) =
      (SyncMessage.mk 2 7 [9]).sequenceNumber ∧
    (SyncMessage.mk 2 7 [9]).serialize.drop 5 = (SyncMessage.mk 2 7 [9]).data :=
  c7_serialize_amended (SyncMessage.mk 2 7 [9]) (by decide)

/-! ## Claim C4: the freeze / unfreeze payload parser -/

theorem drop_57_shift (rest : List Nat) (i : Nat) :
    (rest.drop 57).drop (57 * i) = rest.drop (57 * (i + 1)) := by
  rw [List.drop_drop]
  congr 1
  omega

theorem readFundChunks_isOk (n : Nat) (rest : List Nat) :
    (readFundChunks n rest).isOk = true ↔
      ∀ i < n, chunkFieldsOk ((rest.drop (57 * i)).take 57) := by
  induction n generalizing rest with
  | zero => simp [readFundChunks, Except.isOk, Except.toBool]
  | succ k ih =>
    by_cases hc : chunkFieldsOk (rest.take 57)
    · have hstep : readFundChunks (k + 1) rest =
          match readFundChunks k (rest.drop 57) with
          | .error e => .error e
          | .ok fs => .ok (fundOfChunk (rest.take 57) :: fs) := by
        simp [readFundChunks, hc]
      cases hr : readFundChunks k (rest.drop 57) with
      | error e =>
        have hfalse : ¬ ∀ i < k, chunkFieldsOk (((rest.drop 57).drop (57 * i)).take 57) := by
          intro hall
          have hok := (ih (rest.drop 57)).mpr hall
          rw [hr] at hok
          simp [Except.isOk, Except.toBool] at hok
        rw [hstep, hr]
        simp only [Except.isOk, Except.toBool]
        constructor
        · intro hcon
          exact absurd hcon (by simp)
        · intro hall
          exfalso
          apply hfalse
          intro i hi
          rw [drop_57_shift]
          exact hall (i + 1) (by omega)
      | ok fs =>
        rw [hstep, hr]
        simp only [Except.isOk, Except.toBool]
        constructor
        · intro _ i hi
          cases i with
          | zero => simpa using hc
          | succ j =>
            have hok : (readFundChunks k (rest.drop 57)).isOk = true := by
              simp [hr, Except.isOk, Except.toBool]
            have hj := (ih (rest.drop 57)).mp hok j (by omega)
            rwa [drop_57_shift] at hj
        · intro _
          trivial
    · have herr : readFundChunks (k + 1) rest = .error .valueExceedsMaxInt := by
        simp [readFundChunks, hc]
      rw [herr]
      simp only [Except.isOk, Except.toBool]
      constructor
      · intro hcon
        exact absurd hcon (by simp)
      · intro hall
        exact absurd (by simpa using hall 0 (by omega)) hc

theorem readFundChunks_ok_shape (n : Nat) (rest : List Nat) (fs : List Fund)
    (h : readFundChunks n rest = .ok fs) :
    fs = (List.range n).map (fun i => fundOfChunk ((rest.drop (57 * i)).take 57)) := by
  induction n generalizing rest fs with
  | zero =>
    simp [readFundChunks] at h
    simp [← h]
  | succ k ih =>
    simp only [readFundChunks] at h
    split at h
    · exact Except.noConfusion h
    · split at h
      · exact Except.noConfusion h
      · rename_i fs1 hr
        simp at h
        have hfs1 := ih (rest.drop 57) fs1 hr
        rw [← h, hfs1, List.range_succ_eq_map, List.map_cons, List.map_map]
        congr 1
        apply List.map_congr_left
        intro i _
        show fundOfChunk (((rest.drop 57).drop (57 * i)).take 57) =
          fundOfChunk ((rest.drop (57 * (i + 1))).take 57)
        rw [List.drop_drop, show 57 + 57 * i = 57 * (i + 1) from by ring]

/-- Concrete 57-byte freeze payload whose vout field is the maximum u64,
the overflow seed of the freeze fuzz test. -/
def c4overflow : List Nat :=
  List.replicate 32 0 ++ List.replicate 8 255 ++ toLE 8 100000 ++ toLE 8 200000 ++ [0]

/-- C4 counterexample: a payload of length 57, a positive multiple of 57,
on which Read nevertheless fails, because its vout exceeds the positive
signed 64-bit range; so success is not equivalent to the length condition
alone. -/
theorem c4_freeze_iff_counterexample :
    c4overflow.length = 57 ∧
    0 < c4overflow.length ∧ c4overflow.length % 57 = 0 ∧
    freezeUtxoRead c4overflow = .error .valueExceedsMaxInt := by
  decide

/-- C4 amended: Read succeeds exactly when the payload length is a positive
multiple of 57 and every 57-byte record's vout, start height and end height
fit the positive signed 64-bit range; a successful parse yields one fund
record per 57-byte chunk, in order, with the fields cut at the documented
offsets. -/
theorem c4_freeze_read_amended :
    ∀ (raw : List Nat) (fs : List Fund),
      ((freezeUtxoRead raw).isOk = true ↔
        (0 < raw.length ∧ raw.length % 57 = 0 ∧
          ∀ i < raw.length / 57, chunkFieldsOk ((raw.drop (57 * i)).take 57))) ∧
      (freezeUtxoRead raw = .ok fs →
        fs.length = raw.length / 57 ∧
        ∀ i < raw.length / 57,
          fs[i]? = some (fundOfChunk ((raw.drop (57 * i)).take 57))) := by
  intro raw fs
  constructor
  · unfold freezeUtxoRead
    by_cases h57 : raw.length < 57
    · rw [if_pos h57]
      simp [Except.isOk, Except.toBool]
      intro h1 h2
      omega
    · rw [if_neg h57]
      by_cases hm : raw.length % 57 = 0
      · rw [if_neg (fun hn => hn hm)]
        rw [readFundChunks_isOk]
        constructor
        · intro hall
          exact ⟨by omega, hm, hall⟩
        · intro h3
          exact h3.2.2
      · rw [if_pos hm]
        simp [Except.isOk, Except.toBool]
        intro h1 h2
        exact absurd h2 hm
  · intro h
    unfold freezeUtxoRead at h
    split at h
    · exact Except.noConfusion h
    · split at h
      · exact Except.noConfusion h
      · have hs := readFundChunks_ok_shape _ _ _ h
        subst hs
        constructor
        · simp
        · intro i hi
          simp [List.getElem?_range hi]

/-- Concrete all-zero single-record freeze payload for the C4 witness. -/
def c4valid : List Nat := List.replicate 57 0

/-- Parsed funds of the c4valid payload. -/
def c4funds : List Fund := [fundOfChunk (List.replicate 57 0)]

/-- C4 witness: the amended statement at the all-zero 57-byte payload. -/
theorem c4_freeze_read_witness :
    (freezeUtxoRead c4valid).isOk = true ∧
    c4funds.length = c4valid.length / 57 ∧
    c4funds[0]? = some (fundOfChunk ((c4valid.drop (57 * 0)).take 57)) :=
  ⟨((c4_freeze_read_amended c4valid c4funds).1).mpr (by decide),
   ((c4_freeze_read_amended c4valid c4funds).2 (by decide)).1,
   ((c4_freeze_read_amended c4valid c4funds).2 (by decide)).2 0 (by decide)⟩

/-! ## Claim C6: the envelope minimum-length rule -/

/-- C6: any input shorter than the 20-byte header plus one payload byte
plus the threshold-times-sig-len signature block parses to the too-short
error. -/
theorem c6_envelope_too_short :
    ∀ (b : List Nat),
      b.length < 20 + 1 + thresholdM * sigLenOf (fromLE ((b.drop 16).take 4)) →
      parseEnvelope b = .error .alertTooShort := by
  intro b h
  by_cases h20 : b.length < 20
  · simp [parseEnvelope, h20]
  · simp only [parseEnvelope]
    rw [if_neg h20, if_pos h]

/-- Concrete short input for the C6 witness: 100 zero bytes, below the
216-byte minimum of its (informational-typed) signature block. -/
def c6bytes : List Nat := List.replicate 100 0

/-- C6 witness: the too-short rule at a concrete input. -/
theorem c6_envelope_too_short_witness :
    parseEnvelope c6bytes = .error .alertTooShort :=
  c6_envelope_too_short c6bytes (by decide)

/-! ## Claim C5: sync message parsing -/

/-- C5: the empty input fails; a type-0x01 message parses exactly when it
is the single type byte; any other leading byte parses exactly when at
least five bytes are present, the sequence number is bytes 1..5 as u32
little-endian, and the bytes past the fifth become the data field. -/
theorem c5_sync_parse :
    ∀ (b : List Nat),
      (b = [] → newSyncMessageFromBytes b = .error .emptyMessage) ∧
      (∀ t rest, b = t :: rest → t = iWantLatestCode →
        ((newSyncMessageFromBytes b).isOk = true ↔ b.length = 1) ∧
        (b.length = 1 →
          newSyncMessageFromBytes b = .ok ⟨iWantLatestCode, 0, []⟩)) ∧
      (∀ t rest, b = t :: rest → t ≠ iWantLatestCode →
        ((newSyncMessageFromBytes b).isOk = true ↔ 5 ≤ b.length) ∧
        (∀ m, newSyncMessageFromBytes b = .ok m →
          m.msgType = t ∧ m.sequenceNumber = fromLE ((b.drop 1).take 4) ∧
            m.data = b.drop 5)) := by
  intro b
  refine ⟨?_, ?_, ?_⟩
  · intro hb
    subst hb
    rfl
  · intro t rest hb ht
    subst hb
    subst ht
    cases rest with
    | nil =>
      constructor
      · simp [newSyncMessageFromBytes, Except.isOk, Except.toBool]
      · intro _
        rfl
    | cons x xs =>
      constructor
      · simp [newSyncMessageFromBytes, Except.isOk, Except.toBool]
      · intro hlen
        simp at hlen
  · intro t rest hb ht
    subst hb
    constructor
    · by_cases h4 : rest.length < 4
      · simp [newSyncMessageFromBytes, ht, h4, Except.isOk, Except.toBool]
        try omega
      · simp [newSyncMessageFromBytes, ht, h4, Except.isOk, Except.toBool]
        try omega
    · intro m hm
      simp only [newSyncMessageFromBytes, if_neg ht] at hm
      split at hm
      · exact Except.noConfusion hm
      · simp at hm
        rw [← hm]
        refine ⟨rfl, rfl, rfl⟩

/-- C5 witness: a concrete IWantSequenceNumber message with one trailing
data byte, and the one-byte IWantLatest message. -/
theorem c5_sync_parse_witness :
    newSyncMessageFromBytes [1] = .ok ⟨iWantLatestCode, 0, []⟩ ∧
    (newSyncMessageFromBytes [2, 1, 0, 0, 0, 9]).isOk = true ∧
    ((SyncMessage.mk 2 1 [9]).msgType = 2 ∧
      (SyncMessage.mk 2 1 [9]).sequenceNumber =
        fromLE (([2, 1, 0, 0, 0, 9].drop 1).take 4) ∧
      (SyncMessage.mk 2 1 [9]).data = [2, 1, 0, 0, 0, 9].drop 5) :=
  ⟨((c5_sync_parse [1]).2.1 1 [] rfl rfl).2 (by decide),
   ((c5_sync_parse [2, 1, 0, 0, 0, 9]).2.2 2 [1, 0, 0, 0, 9] rfl
      (by decide)).1.mpr (by decide),
   ((c5_sync_parse [2, 1, 0, 0, 0, 9]).2.2 2 [1, 0, 0, 0, 9] rfl
      (by decide)).2 (SyncMessage.mk 2 1 [9]) (by decide)⟩

/-! ## Claim C1: canonical encoding round trip -/

theorem allBytes_sub {b s : List Nat} (hb : allBytes b) (hs : s ⊆ b) :
    allBytes s :=
  fun x hx => hb x (hs hx)

/-- C1: whenever the envelope parser accepts a byte string, serializing the
resulting alert reproduces that byte string exactly. -/
theorem c1_parse_serialize_roundtrip :
    ∀ (b : List Nat) (a : AlertEnvelope),
      allBytes b → parseEnvelope b = .ok a → serializeEnvelope a = b := by
  intro b a hb h
  simp only [parseEnvelope] at h
  split at h
  · exact Except.noConfusion h
  · rename_i h20
    split at h
    · exact Except.noConfusion h
    · rename_i hlen
      split at h
      · exact Except.noConfusion h
      · simp at h
        subst h
        simp only [serializeEnvelope]
        have hsub : ∀ (n k : Nat), (b.drop n).take k ⊆ b :=
          fun n k x hx => List.drop_subset n b (List.take_subset k (b.drop n) hx)
        have hlb : 21 + thresholdM * sigLenOf (fromLE ((b.drop 16).take 4)) ≤
            b.length := by
          omega
        have h1 : toLE 4 (fromLE (b.take 4)) = b.take 4 := by
          have hl : (b.take 4).length = 4 := by simp; omega
          have hh := toLE_fromLE (b.take 4) (allBytes_sub hb (List.take_subset 4 b))
          rwa [hl] at hh
        have h2 : toLE 4 (fromLE ((b.drop 4).take 4)) = (b.drop 4).take 4 := by
          have hl : ((b.drop 4).take 4).length = 4 := by simp; omega
          have hh := toLE_fromLE _ (allBytes_sub hb (hsub 4 4))
          rwa [hl] at hh
        have h3 : toLE 8 (fromLE ((b.drop 8).take 8)) = (b.drop 8).take 8 := by
          have hl : ((b.drop 8).take 8).length = 8 := by simp; omega
          have hh := toLE_fromLE _ (allBytes_sub hb (hsub 8 8))
          rwa [hl] at hh
        have h4 : toLE 4 (fromLE ((b.drop 16).take 4)) = (b.drop 16).take 4 := by
          have hl : ((b.drop 16).take 4).length = 4 := by simp; omega
          have hh := toLE_fromLE _ (allBytes_sub hb (hsub 16 4))
          rwa [hl] at hh
        rw [h1, h2, h3, h4]
        have e5 : (b.drop 20).take
              (b.length - 20 - thresholdM * sigLenOf (fromLE ((b.drop 16).take 4))) ++
            b.drop (b.length - thresholdM * sigLenOf (fromLE ((b.drop 16).take 4))) =
            b.drop 20 := by
          have hd : (b.drop 20).drop
                (b.length - 20 - thresholdM * sigLenOf (fromLE ((b.drop 16).take 4))) =
              b.drop (b.length - thresholdM * sigLenOf (fromLE ((b.drop 16).take 4))) := by
            rw [List.drop_drop]
            congr 1
            omega
          rw [← hd, List.take_append_drop]
        have e4 : (b.drop 16).take 4 ++ b.drop 20 = b.drop 16 := by
          have hd : (b.drop 16).drop 4 = b.drop 20 := by rw [List.drop_drop]
          rw [← hd, List.take_append_drop]
        have e3 : (b.drop 8).take 8 ++ b.drop 16 = b.drop 8 := by
          have hd : (b.drop 8).drop 8 = b.drop 16 := by rw [List.drop_drop]
          rw [← hd, List.take_append_drop]
        have e2 : (b.drop 4).take 4 ++ b.drop 8 = b.drop 4 := by
          have hd : (b.drop 4).drop 4 = b.drop 8 := by rw [List.drop_drop]
          rw [← hd, List.take_append_drop]
        simp only [List.append_assoc]
        rw [e5, e4, e3, e2, List.take_append_drop]

/-- Concrete minimal informational alert for the C1 witness: header with
version 1, sequence 1, timestamp 0, informational type, a one-byte payload
(the VarInt 0 announcing an empty message) and three 65-byte zero
signatures. -/
def c1bytes : List Nat :=
  [1, 0, 0, 0] ++ [1, 0, 0, 0] ++ List.replicate 8 0 ++ [1, 0, 0, 0] ++
    [0] ++ List.replicate 195 0

/-- The alert the parser produces on c1bytes. -/
def c1alert : AlertEnvelope :=
  { version := 1
    sequenceNumber := 1
    timestamp := 0
    alertType := 1
    rawMessage := [0]
    signatures := List.replicate 195 0 }

set_option maxRecDepth 10000 in
/-- C1 witness: the round trip at a concrete minimal informational
alert. -/
theorem c1_roundtrip_witness :
    allBytes c1bytes ∧ parseEnvelope c1bytes = .ok c1alert ∧
    serializeEnvelope c1alert = c1bytes :=
  ⟨by decide, by decide,
   c1_parse_serialize_roundtrip c1bytes c1alert (by decide) (by decide)⟩

end GoAlertSystem
